import Mathlib

/-!
Verification of the AI-assisted editing orchestration core: the inline
suggestion engine (trigger heuristics, suggestion classification, partial
accept, response handling) and the Composer session orchestrator (submit
guard, task execution loop, per-task effects against the file service).

The definitions below are a shallow embedding of the TypeScript source:
`src/src/components/Composer.tsx` (Composer orchestrator),
`src/src/services/AIService.ts` and `src/src/services/FileService.ts`
(service wrappers), and the `CursorTab` component (suggestion engine).
JavaScript strings are modelled as Lean `String`/`List Char` (the sources
only handle ASCII-range data in the relevant paths, so UTF-16 length and
char count coincide), thrown exceptions as `Except`, and React state
updates (`setCurrentSession`, `setCurrentSuggestion`, ...) as explicit
state values; where a handler performs several state updates in sequence
the model records the observable sequence of states.
-/

/-- JavaScript whitespace (the ASCII part of the regexp class backslash-s,
which is what `trim`, the trigger regexps and the partial-accept split use). -/
def isWs (c : Char) : Bool :=
  c == ' ' || c == '\t' || c == '\n' || c == '\r' || c == '\x0b' || c == '\x0c'

/-- JavaScript word character (regexp class backslash-w): ASCII letters, digits, underscore. -/
def isWordChar (c : Char) : Bool :=
  c.isAlpha || c.isDigit || c == '_'

/-- `String.prototype.trim`: drop leading and trailing whitespace. -/
def jsTrim (cs : List Char) : List Char :=
  ((cs.dropWhile isWs).reverse.dropWhile isWs).reverse

/-- `String.prototype.trim` on `String`. -/
def jsTrimStr (s : String) : String :=
  String.mk (jsTrim s.toList)

/-- The last character of `cs` that is not trailing whitespace, i.e. the
character a regexp of the form `X\s*$` must match with `X`. -/
def lastNonWs (cs : List Char) : Option Char :=
  (cs.reverse.dropWhile isWs).head?

/-- `String.prototype.split('\n')`: the segments between newline characters
(empty segments included), as used by `detectSuggestionType`. -/
def jsSplitNl : List Char → List (List Char)
  | [] => [[]]
  | c :: cs =>
    if c = '\n' then [] :: jsSplitNl cs
    else
      match jsSplitNl cs with
      | [] => [[c]]
      | s :: ss => (c :: s) :: ss

/-- Fuel-indexed worker for `jsSplitWs`; the fuel is an upper bound on the
number of whitespace runs, `cs.length` always suffices. -/
def jsSplitWsAux : Nat → List Char → List (List Char)
  | 0, cs => [cs]
  | fuel + 1, cs =>
    let word := cs.takeWhile (fun c => !(isWs c))
    let rest := cs.dropWhile (fun c => !(isWs c))
    match rest with
    | [] => [word]
    | _ :: _ =>
      let sep := rest.takeWhile isWs
      let rest2 := rest.dropWhile isWs
      word :: sep :: jsSplitWsAux fuel rest2

/-- `String.prototype.split` with the separator regexp `(\s+)` (a capture
group, so the whitespace runs themselves appear in the result, and a text
starting with whitespace yields a leading empty element). Used by
`acceptPartialSuggestion`. -/
def jsSplitWs (cs : List Char) : List (List Char) :=
  jsSplitWsAux cs.length cs

/- ## Data model (`Composer.tsx` and `CursorTab` interfaces) -/

/-- `ComposerTask.type`. -/
inductive TaskType
  | edit
  | create
  | delete
  | move
deriving DecidableEq

/-- `ComposerTask.status`. -/
inductive TaskStatus
  | pending
  | in_progress
  | completed
  | failed
deriving DecidableEq

/-- `ComposerSession.status`. -/
inductive SessionStatus
  | planning
  | executing
  | completed
  | failed
deriving DecidableEq

/-- The `ComposerTask` interface of `Composer.tsx`. -/
structure ComposerTask where
  id : String
  type : TaskType
  filePath : String
  description : String
  changes : Option String
  status : TaskStatus
  originalContent : Option String
  newContent : Option String
deriving DecidableEq

/-- The `ComposerSession` interface of `Composer.tsx` (`createdAt` as an
abstract timestamp). -/
structure ComposerSession where
  id : String
  prompt : String
  tasks : List ComposerTask
  status : SessionStatus
  createdAt : Nat
deriving DecidableEq

/-- The React state of the `Composer` component that `handleSubmit` touches. -/
structure ComposerState where
  prompt : String
  isLoading : Bool
  currentSession : Option ComposerSession
  showPreview : Bool
deriving DecidableEq

/-- `InlineSuggestion.type` of the `CursorTab` component. -/
inductive SuggestionType
  | completion
  | line
  | block
deriving DecidableEq

/-- The `range` record of an `InlineSuggestion`. -/
structure SuggestionRange where
  startLineNumber : Nat
  startColumn : Nat
  endLineNumber : Nat
  endColumn : Nat
deriving DecidableEq

/-- The `InlineSuggestion` interface of the `CursorTab` component. -/
structure InlineSuggestion where
  id : String
  text : String
  range : SuggestionRange
  confidence : Rat
  type : SuggestionType
deriving DecidableEq

/-- A cursor position (Monaco `lineNumber`/`column`). -/
structure Pos where
  line : Nat
  column : Nat
deriving DecidableEq

/-- The payload of a non-null `/api/inline-suggestion` response. -/
structure SuggestionResponse where
  text : String
  confidence : Rat
deriving DecidableEq

/-- The mutable state of the suggestion engine (`CursorTab`): the single
live suggestion, the fire-in-flight flag, the last trigger timestamp and
the last observed cursor position. -/
structure EngineState where
  currentSuggestion : Option InlineSuggestion
  isLoading : Bool
  lastTriggerTime : Nat
  lastPosition : Option Pos
deriving DecidableEq

/- ## File service (`FileService.ts`) -/

/-- A file-persistence request issued over the network by `FileService`. -/
inductive FileOp
  | save (path content : String)
  | create (path content : String)
  | delete (path : String)
deriving DecidableEq

/-- The network backend behind `axios`: for each file operation, either the
request succeeds or the promise rejects with an error. -/
structure Backend where
  result : FileOp → Except String Unit

/-- `FileService.saveFileContent`: try the network call, return `true` on
success, catch any error and return `false`; it never throws. -/
def saveFileContent (b : Backend) (filePath content : String) : Except String Bool :=
  match b.result (FileOp.save filePath content) with
  | Except.ok _ => Except.ok true
  | Except.error _ => Except.ok false

/-- `FileService.createFile`: same catch-all shape as `saveFileContent`. -/
def createFile (b : Backend) (filePath content : String) : Except String Bool :=
  match b.result (FileOp.create filePath content) with
  | Except.ok _ => Except.ok true
  | Except.error _ => Except.ok false

/-- `FileService.deleteFile`: same catch-all shape as `saveFileContent`. -/
def deleteFile (b : Backend) (filePath : String) : Except String Bool :=
  match b.result (FileOp.delete filePath) with
  | Except.ok _ => Except.ok true
  | Except.error _ => Except.ok false

/-- `AIService.getInlineSuggestion`: returns the response body (which may be
`null`), and catches any error by returning `null`; it never throws. The
argument is the outcome of the underlying `axios.post`. -/
def getInlineSuggestion (netResult : Except String (Option SuggestionResponse)) :
    Option SuggestionResponse :=
  match netResult with
  | Except.ok r => r
  | Except.error _ => none

/- ## Suggestion engine (`CursorTab`) -/

/-- `detectSuggestionType`: a text with a newline is a `block` when
`text.split('\n').length > 3` and a `line` otherwise; a text without a
newline is a `completion`. -/
def detectSuggestionType (text : String) : SuggestionType :=
  if text.toList.contains '\n' then
    if 3 < (jsSplitNl text.toList).length then SuggestionType.block
    else SuggestionType.line
  else SuggestionType.completion

/-- One of the anchored regexps in `triggerPatterns`: either the word-run
pattern or a single-character pattern, each followed by optional
whitespace and the end anchor. -/
inductive TriggerPattern
  | wordRun
  | single (c : Char)
deriving DecidableEq

/-- Semantics of testing one of the anchored regexps of `triggerPatterns`
against a string: a pattern of the form `X\s*$` matches exactly when the
last character before the trailing whitespace run matches `X`. -/
def patternTest (p : TriggerPattern) (cs : List Char) : Bool :=
  match lastNonWs cs with
  | none => false
  | some c =>
    match p with
    | TriggerPattern.wordRun => isWordChar c
    | TriggerPattern.single x => c == x

/-- The `triggerPatterns` array of `shouldTriggerSuggestion`, in source
order: word run, dot, opening parenthesis, opening brace, equals, colon,
comma (each with optional trailing whitespace). -/
def triggerPatterns : List TriggerPattern :=
  [TriggerPattern.wordRun, TriggerPattern.single '.', TriggerPattern.single '(',
   TriggerPattern.single '\x7b', TriggerPattern.single '=', TriggerPattern.single ':',
   TriggerPattern.single ',']

/-- The `quotes` array of `shouldTriggerSuggestion`: double quote, single
quote, backtick. -/
def quoteChars : List Char := ['\"', '\'', Char.ofNat 96]

/-- `shouldTriggerSuggestion(beforeCursor, afterCursor)`: reject inside a
comment (trimmed `beforeCursor` starts with a line or block comment
opener), reject when any quote character occurs an odd number of times in
`beforeCursor` (the source counts occurrences as `split(quote).length - 1`),
and otherwise accept exactly when one of the `triggerPatterns` regexps
matches. `afterCursor` is received but never consulted. -/
def shouldTriggerSuggestion (beforeCursor afterCursor : String) : Bool :=
  if List.isPrefixOf ['/', '/'] (jsTrim beforeCursor.toList)
      || List.isPrefixOf ['/', '*'] (jsTrim beforeCursor.toList) then
    false
  else if quoteChars.any (fun q => beforeCursor.toList.count q % 2 == 1) then
    false
  else
    triggerPatterns.any (fun p => patternTest p beforeCursor.toList)

/-- The `InlineSuggestion` built in `triggerSuggestion` from a non-empty
response: id is the current timestamp, the range is collapsed at the
cursor, the confidence defaults to 0.8 when the response's confidence is
falsy (`suggestion.confidence || 0.8`), and the kind comes from
`detectSuggestionType`. -/
def mkSuggestion (now : Nat) (pos : Pos) (r : SuggestionResponse) : InlineSuggestion :=
  { id := toString now
    text := r.text
    range :=
      { startLineNumber := pos.line
        startColumn := pos.column
        endLineNumber := pos.line
        endColumn := pos.column }
    confidence := if r.confidence = 0 then (4 : Rat) / 5 else r.confidence
    type := detectSuggestionType r.text }

/-- The synchronous head of `triggerSuggestion`, up to the `await` of the
suggestion request: bail out while a request is in flight (unless forced),
bail out when the heuristics reject (unless forced, clearing the loading
flag the source transiently set), and otherwise fire the request with the
loading flag set. Returns the new state and whether a request was issued.
The editor/model/file null guards of the source are omitted: the model
assumes an editor with an open file. -/
def triggerStart (st : EngineState) (force : Bool)
    (beforeCursor afterCursor : String) : EngineState × Bool :=
  if st.isLoading && !force then (st, false)
  else if !(shouldTriggerSuggestion beforeCursor afterCursor) && !force then
    ({ st with isLoading := false }, false)
  else ({ st with isLoading := true }, true)

/-- The continuation of `triggerSuggestion` after the awaited response
arrives (including its `finally`): a response that is non-null and has
non-empty text is installed as the live suggestion (and shown as ghost
text); any other response installs nothing; the loading flag is cleared in
every case. No token or staleness check is performed on `st`. -/
def responseArrive (now : Nat) (st : EngineState) (pos : Pos)
    (resp : Option SuggestionResponse) : EngineState :=
  match resp with
  | some r =>
    if r.text == "" then { st with isLoading := false }
    else
      { st with
          currentSuggestion := some (mkSuggestion now pos r)
          isLoading := false }
  | none => { st with isLoading := false }

/-- `dismissSuggestion`: clear the live suggestion (and hide the ghost
text widget). -/
def dismissSuggestion (st : EngineState) : EngineState :=
  { st with currentSuggestion := none }

/-- Distance between two Monaco coordinates (`Math.abs` of the difference). -/
def natDist (a b : Nat) : Nat := max a b - min a b

/-- `handleCursorPositionChange`: dismiss the live suggestion when the
cursor moved to another line or by more than 2 columns, then record the
new position. (The debounce re-arm that follows is a timer and is outside
this state model.) -/
def handleCursorPositionChange (st : EngineState) (pos : Pos) : EngineState :=
  let st1 :=
    match st.lastPosition with
    | some lp =>
      if 0 < natDist pos.line lp.line || 2 < natDist pos.column lp.column then
        dismissSuggestion st
      else st
    | none => st
  { st1 with lastPosition := some pos }

/-- `handleContentChange`: record the trigger timestamp and dismiss any
live suggestion. (The debounce re-arm is a timer, outside this model.) -/
def handleContentChange (st : EngineState) (now : Nat) : EngineState :=
  let st1 := { st with lastTriggerTime := now }
  if st1.currentSuggestion.isSome then dismissSuggestion st1 else st1

/-- `acceptPartialSuggestion`: split the suggestion text with
`split(/(\s+)/)`, insert `words[0]` at the cursor, and either keep a
reduced suggestion carrying `text.substring(words[0].length)` with the
anchor column advanced by `words[0].length` (when the remainder trims to
something non-empty) or dismiss. Returns the inserted text and the
resulting live suggestion. -/
def acceptPartialSuggestion (s : InlineSuggestion) : String × Option InlineSuggestion :=
  match (jsSplitWs s.text.toList).head? with
  | none => ("", some s)
  | some w =>
    let firstWord : String := String.mk w
    let remainingText : String := String.mk (s.text.toList.drop w.length)
    if (jsTrim remainingText.toList).isEmpty then (firstWord, none)
    else
      (firstWord,
        some { s with
                 text := remainingText
                 range := { s.range with startColumn := s.range.startColumn + w.length } })

/- ## Composer orchestrator (`Composer.tsx`) -/

/-- `executeTask`: dispatch on the task type against `FileService`. An
`edit` or `create` task runs its file operation only when `newContent` is
truthy (present and non-empty); a `delete` task always runs its operation;
a `move` task does nothing (the source's branch holds only a TODO
comment). The boolean result of each file operation is discarded. Returns
the list of file operations attempted and the thrown-or-ok outcome. -/
def executeTask (b : Backend) (task : ComposerTask) : List FileOp × Except String Unit :=
  match task.type with
  | TaskType.edit =>
    match task.newContent with
    | some c =>
      if c == "" then ([], Except.ok ())
      else ([FileOp.save task.filePath c],
            (saveFileContent b task.filePath c).map (fun _ => ()))
    | none => ([], Except.ok ())
  | TaskType.create =>
    match task.newContent with
    | some c =>
      if c == "" then ([], Except.ok ())
      else ([FileOp.create task.filePath c],
            (createFile b task.filePath c).map (fun _ => ()))
    | none => ([], Except.ok ())
  | TaskType.delete =>
    ([FileOp.delete task.filePath],
     (deleteFile b task.filePath).map (fun _ => ()))
  | TaskType.move => ([], Except.ok ())

/-- One iteration of the `executeTasks` loop, as the two states it passes
to `setCurrentSession`. The source rebuilds `updatedTasks` from the
original `session.tasks` on every iteration (`[...session.tasks]`), so
each published state carries the original statuses everywhere except at
index `i`: first `in_progress`, then `completed` or `failed` according to
whether the task's effect threw. -/
def executeTasksStep (effect : ComposerTask → Except String Unit)
    (session : ComposerSession) (i : Nat) (task : ComposerTask) : List ComposerSession :=
  let inProgress :=
    { session with tasks := session.tasks.set i { task with status := TaskStatus.in_progress } }
  let done :=
    match effect task with
    | Except.ok _ =>
      { session with tasks := session.tasks.set i { task with status := TaskStatus.completed } }
    | Except.error _ =>
      { session with tasks := session.tasks.set i { task with status := TaskStatus.failed } }
  [inProgress, done]

/-- The `for` loop of `executeTasks`, walking `session.tasks` by index. -/
def executeTasksLoop (effect : ComposerTask → Except String Unit)
    (session : ComposerSession) : Nat → List ComposerTask → List ComposerSession
  | _, [] => []
  | i, t :: ts =>
    executeTasksStep effect session i t ++ executeTasksLoop effect session (i + 1) ts

/-- The state `executeTasks` publishes after the loop: the spread
`{...session, status}` keeps the original `session.tasks` (with their
original statuses), and `allCompleted` is computed from those same
original tasks. -/
def executeTasksFinal (session : ComposerSession) : ComposerSession :=
  { session with
      status :=
        if session.tasks.all (fun t => decide (t.status = TaskStatus.completed)) then
          SessionStatus.completed
        else SessionStatus.failed }

/-- `executeTasks`: the full sequence of states passed to
`setCurrentSession`, two per task plus the final status update. -/
def executeTasksTrace (effect : ComposerTask → Except String Unit)
    (session : ComposerSession) : List ComposerSession :=
  executeTasksLoop effect session 0 session.tasks ++ [executeTasksFinal session]

/-- `handleSubmit`: the guard `if (!prompt.trim() || isLoading) return`
gives a synchronous no-op, modelled as an empty state trace and no
planning request. Otherwise the loading flag is set, a fresh `planning`
session is published, the planner is called, and on success the session
moves to `executing` and the task loop runs; the `finally` clears the
loading flag. On a planning error the `catch` consults the `currentSession`
captured by the closure at render time, i.e. the pre-submit value `st.currentSession`
(not the session just published), marking it failed when present. Returns
the sequence of published states and whether a planning request was issued.
(`getCodebaseContext`/`getFileTree` only build the request payload and are
absorbed into the `planResult` parameter.) -/
def handleSubmit (st : ComposerState) (now : Nat)
    (planResult : Except String (List ComposerTask))
    (effect : ComposerTask → Except String Unit) : List ComposerState × Bool :=
  if jsTrimStr st.prompt == "" || st.isLoading then ([], false)
  else
    let st1 := { st with isLoading := true }
    let session : ComposerSession :=
      { id := toString now
        prompt := jsTrimStr st.prompt
        tasks := []
        status := SessionStatus.planning
        createdAt := now }
    let st2 := { st1 with currentSession := some session, showPreview := true }
    match planResult with
    | Except.error _ =>
      let st3 :=
        match st.currentSession with
        | some cs => { st2 with currentSession := some { cs with status := SessionStatus.failed } }
        | none => st2
      ([st1, st2, { st3 with isLoading := false }], true)
    | Except.ok tasks =>
      let updatedSession := { session with tasks := tasks, status := SessionStatus.executing }
      let st3 := { st2 with currentSession := some updatedSession }
      let execStates :=
        (executeTasksTrace effect updatedSession).map
          (fun s => { st3 with currentSession := some s })
      let afterExec := match execStates.getLast? with
        | some sN => sN
        | none => st3
      ([st1, st2, st3] ++ execStates ++ [{ afterExec with isLoading := false }], true)

/- ## Specification-side predicates

These restate the spec's wording independently of the model, for use in
claim statements. -/

/-- The trimmed text starts a line comment (`//` or `/*`). -/
def StartsComment (b : List Char) : Prop :=
  List.isPrefixOf ['/', '/'] (jsTrim b) = true ∨ List.isPrefixOf ['/', '*'] (jsTrim b) = true

/-- Every quote character occurs an even number of times. -/
def EvenQuotes (b : List Char) : Prop :=
  ∀ q ∈ quoteChars, b.count q % 2 = 0

/-- A character that ends one of the spec's trigger shapes: part of a
word-character run, or dot, opening parenthesis, opening brace, equals,
colon, comma. -/
def TriggerCharSpec (c : Char) : Prop :=
  isWordChar c = true ∨ c = '.' ∨ c = '(' ∨ c = '\x7b' ∨ c = '=' ∨ c = ':' ∨ c = ','

/-- The text ends with a trigger character optionally followed by
whitespace: it decomposes as some prefix, a trigger character, and an
all-whitespace suffix. -/
def EndsWithTrigger (b : List Char) : Prop :=
  ∃ a c w, b = a ++ c :: w ∧ (∀ x ∈ w, isWs x = true) ∧ TriggerCharSpec c

/- ## Concrete inputs used by counterexamples and witnesses -/

/-- Feed the suggestion kept by one partial accept into the next one. -/
def partialStep (o : Option InlineSuggestion) : Option InlineSuggestion :=
  match o with
  | none => none
  | some s => (acceptPartialSuggestion s).2

/-- The live suggestion of the spec's partial-accept example. -/
def suggFooBarBaz : InlineSuggestion :=
  { id := "1", text := "foo bar baz"
    range := { startLineNumber := 1, startColumn := 5, endLineNumber := 1, endColumn := 5 }
    confidence := 1, type := SuggestionType.completion }

/-- The suggestion `acceptPartialSuggestion` keeps after consuming `foo`
from `suggFooBarBaz`: the leading whitespace stays on the text. -/
def suggAfterFirst : InlineSuggestion :=
  { suggFooBarBaz with
      text := " bar baz"
      range := { suggFooBarBaz.range with startColumn := 8 } }

/-- A suggestion already on display before a forced re-trigger. -/
def suggOld : InlineSuggestion :=
  { id := "0", text := "old"
    range := { startLineNumber := 1, startColumn := 9, endLineNumber := 1, endColumn := 9 }
    confidence := 1, type := SuggestionType.completion }

/-- A non-empty suggestion response. -/
def respHello : SuggestionResponse := { text := "hello", confidence := 1 }

/-- An idle engine with no live suggestion, cursor last seen at (1, 5). -/
def engineIdle : EngineState :=
  { currentSuggestion := none, isLoading := false, lastTriggerTime := 0
    lastPosition := some { line := 1, column := 5 } }

/-- An engine currently showing `suggOld`. -/
def engineShowing : EngineState := { engineIdle with currentSuggestion := some suggOld }

/-- The engine state after a request fires from `engineIdle` at a context
the heuristics accept. -/
def c7afterStart : EngineState × Bool := triggerStart engineIdle false "const x = " ""

/-- ... after which the cursor then moves to a different line (a
cancellation criterion) while the request is in flight. -/
def c7afterMove : EngineState :=
  handleCursorPositionChange c7afterStart.1 { line := 2, column := 1 }

/-- ... after which the in-flight response finally arrives. -/
def c7final : EngineState :=
  responseArrive 9 c7afterMove { line := 1, column := 11 }
    (getInlineSuggestion (Except.ok (some respHello)))

/-- A forced re-trigger while `suggOld` is showing, whose fetch then
errors. -/
def c8afterFail : EngineState :=
  responseArrive 7 ((triggerStart engineShowing true "const x = " "").1)
    { line := 1, column := 9 } (getInlineSuggestion (Except.error "network error"))

/-- A backend on which every file operation succeeds. -/
def backendOk : Backend := { result := fun _ => Except.ok () }

/-- A backend on which every file operation rejects. -/
def backendFail : Backend := { result := fun _ => Except.error "network error" }

/-- A task effect that always succeeds. -/
def effectOk : ComposerTask → Except String Unit := fun _ => Except.ok ()

/-- A pending edit task with the given id. -/
def editTask (i : String) : ComposerTask :=
  { id := i, type := TaskType.edit, filePath := "a.ts", description := ""
    changes := none, status := TaskStatus.pending, originalContent := none
    newContent := some "x" }

/-- The three-task session of the spec's partial-failure example. -/
def c2session : ComposerSession :=
  { id := "s", prompt := "p", tasks := [editTask "1", editTask "2", editTask "3"]
    status := SessionStatus.executing, createdAt := 0 }

/-- An effect that throws exactly on task 2. -/
def c2effect : ComposerTask → Except String Unit :=
  fun t => if t.id == "2" then Except.error "boom" else Except.ok ()

/-- A pending `move` task. -/
def moveTask : ComposerTask :=
  { id := "m", type := TaskType.move, filePath := "a.ts", description := "move it"
    changes := none, status := TaskStatus.pending, originalContent := none
    newContent := none }

/-- A session holding only `moveTask`. -/
def moveSession : ComposerSession :=
  { id := "s", prompt := "p", tasks := [moveTask]
    status := SessionStatus.executing, createdAt := 0 }

/-- A task already in status `failed`. -/
def failedTask : ComposerTask := { editTask "f" with status := TaskStatus.failed }

/-- A session holding only `failedTask`. -/
def failedSession : ComposerSession :=
  { id := "s", prompt := "p", tasks := [failedTask]
    status := SessionStatus.executing, createdAt := 0 }

/-- A composer state whose prompt is blank. -/
def blankState : ComposerState :=
  { prompt := "   ", isLoading := false, currentSession := none, showPreview := false }

deriving instance DecidableEq for Except

/- ## Helper lemmas -/

theorem jsSplitNl_ne_nil (cs : List Char) : jsSplitNl cs ≠ [] := by
  cases cs with
  | nil => simp [jsSplitNl]
  | cons c cs =>
    simp only [jsSplitNl]
    split
    · simp
    · split <;> simp

theorem jsSplitNl_length (cs : List Char) :
    (jsSplitNl cs).length = cs.count '\n' + 1 := by
  induction cs with
  | nil => simp [jsSplitNl]
  | cons c cs ih =>
    by_cases h : c = '\n'
    · subst h
      simp [jsSplitNl, List.count_cons, ih]
    · simp only [jsSplitNl, if_neg h]
      cases hsplit : jsSplitNl cs with
      | nil => exact absurd hsplit (jsSplitNl_ne_nil cs)
      | cons s ss =>
        rw [hsplit] at ih
        simp only [List.length_cons] at ih ⊢
        rw [List.count_cons]
        simp [h, Ne.symm h]
        omega

/-- `executeTask` never throws: every `FileService` operation it calls
catches its own errors and resolves to a boolean, which is discarded. -/
theorem executeTask_snd_ok (b : Backend) (t : ComposerTask) :
    (executeTask b t).2 = Except.ok () := by
  have hsave : ∀ p c, (saveFileContent b p c).map (fun _ => ()) = Except.ok () := by
    intro p c
    unfold saveFileContent
    cases b.result (FileOp.save p c) <;> rfl
  have hcreate : ∀ p c, (createFile b p c).map (fun _ => ()) = Except.ok () := by
    intro p c
    unfold createFile
    cases b.result (FileOp.create p c) <;> rfl
  have hdelete : ∀ p, (deleteFile b p).map (fun _ => ()) = Except.ok () := by
    intro p
    unfold deleteFile
    cases b.result (FileOp.delete p) <;> rfl
  unfold executeTask
  cases htype : t.type
  · cases hnc : t.newContent with
    | none => rfl
    | some c =>
      by_cases hc : c == ""
      · simp [hc]
      · simp [hc, hsave]
  · cases hnc : t.newContent with
    | none => rfl
    | some c =>
      by_cases hc : c == ""
      · simp [hc]
      · simp [hc, hcreate]
  · simp [hdelete]
  · rfl

/- ## Claim theorems -/

/-- C1: once the execution loop has drained all tasks, the session state it
publishes last has status `completed` iff every task in it has status
`completed`, and any `failed` task in it forces status `failed`. (This
holds because the final published state carries the session's original
task list and computes `allCompleted` from exactly those statuses; see C2
for how the in-loop status updates relate to it.) -/
theorem claim1_session_status_invariant (effect : ComposerTask → Except String Unit)
    (s : ComposerSession) :
    (executeTasksTrace effect s).getLast? = some (executeTasksFinal s)
    ∧ ((executeTasksFinal s).status = SessionStatus.completed ↔
        ∀ t ∈ (executeTasksFinal s).tasks, t.status = TaskStatus.completed)
    ∧ ((∃ t ∈ (executeTasksFinal s).tasks, t.status = TaskStatus.failed) →
        (executeTasksFinal s).status = SessionStatus.failed) := by
  refine ⟨List.getLast?_concat _, ?_, ?_⟩
  · unfold executeTasksFinal
    by_cases h : s.tasks.all (fun t => decide (t.status = TaskStatus.completed)) = true
    · simp only [h, if_pos]
      rw [List.all_eq_true] at h
      simp only [decide_eq_true_eq] at h
      simpa using h
    · simp only [h]
      rw [if_neg (by simpa using h)]
      constructor
      · intro hcon
        exact absurd hcon (by simp)
      · intro hall
        exfalso
        apply h
        rw [List.all_eq_true]
        intro t ht
        simpa using hall t ht
  · rintro ⟨t, ht, hf⟩
    unfold executeTasksFinal
    simp only
    rw [if_neg]
    intro hall
    rw [List.all_eq_true] at hall
    have := hall t ht
    rw [hf] at this
    simp at this

/-- Witness for C1 at a session holding a single `failed` task. -/
theorem claim1_witness : (executeTasksFinal failedSession).status = SessionStatus.failed :=
  (claim1_session_status_invariant effectOk failedSession).2.2
    ⟨failedTask, by decide, rfl⟩

/-- C2: running the three-task loop where only task 2's effect throws. The
loop does continue past the failure and marks each task within its own
iteration (trace states 1, 3 and 5), but every iteration rebuilds its task
array from the original `session.tasks` and the final update spreads the
original session, so the state published after the loop reports all three
tasks as `pending` (not `completed`/`failed`/`completed`) with session
status `failed`. This contradicts the claimed final per-task statuses. -/
theorem claim2_partial_failure_code_eval :
    ((executeTasksTrace c2effect c2session)[1]?).map (fun s => s.tasks.map (fun t => t.status))
      = some [TaskStatus.completed, TaskStatus.pending, TaskStatus.pending]
    ∧ ((executeTasksTrace c2effect c2session)[3]?).map (fun s => s.tasks.map (fun t => t.status))
      = some [TaskStatus.pending, TaskStatus.failed, TaskStatus.pending]
    ∧ ((executeTasksTrace c2effect c2session)[5]?).map (fun s => s.tasks.map (fun t => t.status))
      = some [TaskStatus.pending, TaskStatus.pending, TaskStatus.completed]
    ∧ (executeTasksTrace c2effect c2session).getLast?.map
        (fun s => (s.tasks.map (fun t => t.status), s.status))
      = some ([TaskStatus.pending, TaskStatus.pending, TaskStatus.pending],
              SessionStatus.failed) := by
  decide

/-- C3: the partial-accept example. The first partial accept inserts `foo`
and keeps `" bar baz"` (leading whitespace included) with the anchor
advanced by 3. From then on `split(/(\s+)/)` yields a leading empty
element, so the second accept inserts the empty string and returns the
suggestion unchanged: repeated partial accepts never consume the text
further, and after three accepts a live suggestion still remains —
contradicting both the strict-shortening and the full-consumption parts of
the claim. -/
theorem claim3_partial_accept_code_eval :
    acceptPartialSuggestion suggFooBarBaz = ("foo", some suggAfterFirst)
    ∧ acceptPartialSuggestion suggAfterFirst = ("", some suggAfterFirst)
    ∧ partialStep (partialStep (partialStep (some suggFooBarBaz)))
        = some suggAfterFirst := by
  decide

/-- C4 counterexample: a `move` task is silently ignored. Its execution
performs no file operation and raises no error, and the loop's own
iteration state marks it `completed` — i.e. it is counted as a successful
task, contradicting the claim that it is surfaced as an explicitly
unsupported case. -/
theorem claim4_counterexample :
    executeTask backendOk moveTask = ([], Except.ok ())
    ∧ ((executeTasksTrace (fun t => (executeTask backendOk t).2) moveSession)[1]?).map
        (fun s => s.tasks.map (fun t => t.status))
      = some [TaskStatus.completed] := by
  decide

/-- C4 amended: executing a task of kind `move` is a silent no-op — it
performs no file operation and returns success, for every backend and
every `move` task (so the loop counts it as completed). -/
theorem claim4_move_silent_noop (b : Backend) (t : ComposerTask)
    (h : t.type = TaskType.move) : executeTask b t = ([], Except.ok ()) := by
  unfold executeTask
  rw [h]

/-- Witness for the amended C4 at `moveTask`. -/
theorem claim4_witness : executeTask backendFail moveTask = ([], Except.ok ()) :=
  claim4_move_silent_noop backendFail moveTask rfl

/-- C10: the file-persistence operations catch all errors internally and
resolve to a boolean (`false` when the backend rejects), the task executor
discards that boolean, and consequently a task of kind `edit`, `create` or
`delete` never throws — even a task whose underlying file operation failed
is observed as successful by the execution loop. -/
theorem claim10_effects_never_throw :
    (∀ (b : Backend) (p c e : String), b.result (FileOp.save p c) = Except.error e →
        saveFileContent b p c = Except.ok false)
    ∧ (∀ (b : Backend) (p c e : String), b.result (FileOp.create p c) = Except.error e →
        createFile b p c = Except.ok false)
    ∧ (∀ (b : Backend) (p e : String), b.result (FileOp.delete p) = Except.error e →
        deleteFile b p = Except.ok false)
    ∧ (∀ (b : Backend) (t : ComposerTask),
        t.type = TaskType.edit ∨ t.type = TaskType.create ∨ t.type = TaskType.delete →
        (executeTask b t).2 = Except.ok ()) := by
  refine ⟨?_, ?_, ?_, fun b t _ => executeTask_snd_ok b t⟩
  · intro b p c e h
    unfold saveFileContent
    rw [h]
  · intro b p c e h
    unfold createFile
    rw [h]
  · intro b p e h
    unfold deleteFile
    rw [h]

/-- Witness for C10: on a backend that rejects everything, saving returns
`ok false` and an edit task still executes without throwing. -/
theorem claim10_witness :
    saveFileContent backendFail "a.ts" "x" = Except.ok false
    ∧ (executeTask backendFail (editTask "1")).2 = Except.ok () :=
  ⟨claim10_effects_never_throw.1 backendFail "a.ts" "x" "network error" rfl,
   claim10_effects_never_throw.2.2.2 backendFail (editTask "1") (Or.inl rfl)⟩

/-- C5 counterexample: a text with exactly 3 line breaks (4 lines). The
claim's clauses conflict here: "more than 3 lines" covers it but so does
"1 to 3 line breaks". The function follows the line count and returns
`block`, not `line`. -/
theorem claim5_counterexample :
    "a\nb\nc\nd".toList.count '\n' = 3
    ∧ detectSuggestionType "a\nb\nc\nd" = SuggestionType.block := by
  decide

/-- C5 amended: the classification is by line count, i.e. by line breaks as
`block` for 3 or more line breaks (more than 3 lines), `line` for 1 or 2
line breaks, and `completion` for none. -/
theorem claim5_kind_classification (text : String) :
    (detectSuggestionType text = SuggestionType.block ↔ 3 ≤ text.toList.count '\n')
    ∧ (detectSuggestionType text = SuggestionType.line ↔
        (1 ≤ text.toList.count '\n' ∧ text.toList.count '\n' ≤ 2))
    ∧ (detectSuggestionType text = SuggestionType.completion ↔
        text.toList.count '\n' = 0) := by
  by_cases hmem : '\n' ∈ text.toList
  · have h : text.toList.contains '\n' = true := List.elem_iff.mpr hmem
    have hpos : 0 < text.toList.count '\n' := List.count_pos_iff.mpr hmem
    simp only [detectSuggestionType, h, if_true, jsSplitNl_length]
    by_cases h3 : 3 < text.toList.count '\n' + 1
    · rw [if_pos h3]
      exact ⟨⟨fun _ => by omega, fun _ => rfl⟩,
        ⟨fun hx => absurd hx (by decide), fun hx => by exfalso; omega⟩,
        ⟨fun hx => absurd hx (by decide), fun hx => by exfalso; omega⟩⟩
    · rw [if_neg h3]
      exact ⟨⟨fun hx => absurd hx (by decide), fun _ => by exfalso; omega⟩,
        ⟨fun _ => ⟨hpos, by omega⟩, fun _ => rfl⟩,
        ⟨fun hx => absurd hx (by decide), fun hx => by exfalso; omega⟩⟩
  · have h : text.toList.contains '\n' = false := by
      cases hc : text.toList.contains '\n'
      · rfl
      · exact absurd (List.elem_iff.mp hc) hmem
    have hzero : text.toList.count '\n' = 0 := List.count_eq_zero.mpr hmem
    simp only [detectSuggestionType, h, Bool.false_eq_true, if_false, hzero]
    exact ⟨⟨fun hx => absurd hx (by decide), fun hx => by exfalso; omega⟩,
      ⟨fun hx => absurd hx (by decide), fun hx => by exfalso; omega⟩, trivial⟩

/-- Witness for the amended C5: a break-free text classifies as
`completion`. -/
theorem claim5_witness : detectSuggestionType "ab" = SuggestionType.completion :=
  (claim5_kind_classification "ab").2.2.mpr (by decide)

/-- C7 counterexample: a request fires from an idle engine, the cursor then
moves to a different line (a cancellation criterion, which dismisses any
suggestion) while the request is in flight, and the response that then
arrives is nevertheless installed as the live suggestion — there is no
request token and stale responses are not discarded. -/
theorem claim7_counterexample :
    c7afterStart.2 = true
    ∧ c7afterStart.1.isLoading = true
    ∧ c7final.currentSuggestion.map (fun s => s.text) = some "hello" := by
  decide

/-- C7 amended: the response continuation performs no staleness check at
all — whatever happened to the engine state after the request fired
(cursor moves, edits, dismissals), a non-empty response is installed as
the live suggestion. -/
theorem claim7_stale_response_installed (st : EngineState) (now : Nat) (pos : Pos)
    (r : SuggestionResponse) (h : r.text ≠ "") :
    (responseArrive now st pos (some r)).currentSuggestion
      = some (mkSuggestion now pos r) := by
  have hb : (r.text == "") = false := by
    simpa using h
  simp [responseArrive, hb]

/-- Witness for the amended C7 in the `c7` scenario. -/
theorem claim7_witness :
    (responseArrive 9 c7afterMove { line := 1, column := 11 } (some respHello)).currentSuggestion
      = some (mkSuggestion 9 { line := 1, column := 11 } respHello) :=
  claim7_stale_response_installed c7afterMove 9 { line := 1, column := 11 } respHello
    (by decide)

/-- C8 counterexample: while `suggOld` is showing, a forced re-trigger
fires a request whose fetch errors. The error is swallowed and the loading
flag cleared, but the engine does not end with "no live suggestion": the
previously shown suggestion is still live. -/
theorem claim8_counterexample :
    c8afterFail.isLoading = false
    ∧ c8afterFail.currentSuggestion.map (fun s => s.text) = some "old" := by
  decide

/-- C8 amended: a failed or errored fetch is swallowed by the service
(`getInlineSuggestion` resolves to `null` instead of throwing), and the
engine's response continuation then installs nothing and only clears the
loading flag, leaving the live suggestion exactly as it was — in
particular, when no suggestion was live the engine ends idle with none.
No retry is issued by this path. -/
theorem claim8_failure_semantics (st : EngineState) (now : Nat) (pos : Pos) (e : String) :
    getInlineSuggestion (Except.error e) = none
    ∧ responseArrive now st pos (getInlineSuggestion (Except.error e))
        = { st with isLoading := false } :=
  ⟨rfl, rfl⟩

/-- C9: `handleSubmit` returns synchronously before publishing any state
and before issuing a planning request whenever the trimmed prompt is empty
or the loading flag is set, and the loading flag is set in every state the
submission publishes before its final one — so while a submitted session
is anywhere in flight (in particular while it is `executing` in the task
loop), a reentrant `handleSubmit` hits the guard and is a no-op. -/
theorem claim9_submit_guard (st : ComposerState) (now : Nat)
    (plan : Except String (List ComposerTask)) (effect : ComposerTask → Except String Unit) :
    ((jsTrimStr st.prompt = "" ∨ st.isLoading = true) →
        handleSubmit st now plan effect = ([], false))
    ∧ (∀ s ∈ (handleSubmit st now plan effect).1.dropLast, s.isLoading = true) := by
  constructor
  · intro h
    have hg : (jsTrimStr st.prompt == "" || st.isLoading) = true := by
      rcases h with h | h
      · simp [h]
      · simp [h]
    simp [handleSubmit, hg]
  · by_cases hg : (jsTrimStr st.prompt == "" || st.isLoading) = true
    · simp [handleSubmit, hg]
    · cases plan with
      | error e =>
        simp only [handleSubmit]
        rw [if_neg hg]
        intro s hs
        simp only [List.dropLast_cons₂, List.dropLast_single, List.mem_cons,
          List.not_mem_nil, or_false] at hs
        rcases hs with rfl | rfl <;> rfl
      | ok tasks =>
        simp only [handleSubmit]
        rw [if_neg hg]
        dsimp only
        intro s hs
        rw [List.dropLast_concat] at hs
        rcases List.mem_append.mp hs with h1 | h2
        · simp only [List.mem_cons, List.not_mem_nil, or_false] at h1
          rcases h1 with rfl | rfl | rfl <;> rfl
        · rcases List.mem_map.mp h2 with ⟨x, _, rfl⟩
          rfl

/-- Witness for C9 at a blank-prompt state. -/
theorem claim9_witness : handleSubmit blankState 0 (Except.ok []) effectOk = ([], false) :=
  (claim9_submit_guard blankState 0 (Except.ok []) effectOk).1 (Or.inl (by decide))

theorem lastNonWs_concat (ys : List Char) (x : Char) :
    lastNonWs (ys ++ [x]) = if isWs x then lastNonWs ys else some x := by
  unfold lastNonWs
  rw [List.reverse_append ys [x]]
  simp only [List.reverse_cons, List.reverse_nil, List.nil_append, List.singleton_append]
  rw [List.dropWhile_cons]
  split
  · rfl
  · rfl

/-- A character satisfying the spec's trigger-character shapes is not
whitespace. -/
theorem triggerCharSpec_not_ws (c : Char) (h : TriggerCharSpec c) : isWs c = false := by
  unfold TriggerCharSpec at h
  rcases h with h | rfl | rfl | rfl | rfl | rfl | rfl
  · cases hws : isWs c
    · rfl
    · exfalso
      have hc6 : c = ' ' ∨ c = '\t' ∨ c = '\n' ∨ c = '\r' ∨ c = '\x0b' ∨ c = '\x0c' := by
        unfold isWs at hws
        simp only [Bool.or_eq_true, beq_iff_eq] at hws
        tauto
      rcases hc6 with rfl | rfl | rfl | rfl | rfl | rfl <;> exact absurd h (by decide)
  all_goals decide

/-- Characterization of "the last character before the trailing whitespace
run satisfies `P`" as an explicit decomposition: some prefix, a
`P`-character, then an all-whitespace suffix. -/
theorem lastNonWs_spec (P : Char → Prop) (hP : ∀ c, P c → isWs c = false) (b : List Char) :
    (∃ c, lastNonWs b = some c ∧ P c) ↔
      ∃ a c w, b = a ++ c :: w ∧ (∀ x ∈ w, isWs x = true) ∧ P c := by
  induction b using List.reverseRecOn with
  | nil =>
    constructor
    · rintro ⟨c, hc, -⟩
      simp [lastNonWs] at hc
    · rintro ⟨a, c, w, habs, -, -⟩
      have hlen := congrArg List.length habs
      simp [List.length_append] at hlen
      omega
  | append_singleton ys x ih =>
    by_cases hx : isWs x = true
    · rw [show (∃ c, lastNonWs (ys ++ [x]) = some c ∧ P c) ↔
            (∃ c, lastNonWs ys = some c ∧ P c) by
          rw [lastNonWs_concat, if_pos hx]]
      rw [ih]
      constructor
      · rintro ⟨a, c, w, hb, hw, hc⟩
        refine ⟨a, c, w ++ [x], by rw [hb]; simp, ?_, hc⟩
        intro y hy
        rcases List.mem_append.mp hy with h | h
        · exact hw y h
        · rw [List.mem_singleton.mp h]
          exact hx
      · rintro ⟨a, c, w, hb, hw, hc⟩
        rcases List.eq_nil_or_concat w with rfl | ⟨w', x', hw'⟩
        · obtain ⟨h1, h2⟩ := List.append_inj' hb rfl
          obtain rfl : x = c := by simpa using h2
          rw [hP x hc] at hx
          exact absurd hx (by simp)
        · rw [List.concat_eq_append] at hw'
          subst hw'
          rw [show a ++ c :: (w' ++ [x']) = (a ++ c :: w') ++ [x'] by simp] at hb
          obtain ⟨h1, h2⟩ := List.append_inj' hb rfl
          obtain rfl : x = x' := by simpa using h2
          exact ⟨a, c, w', h1, fun y hy => hw y (List.mem_append.mpr (Or.inl hy)), hc⟩
    · rw [show (∃ c, lastNonWs (ys ++ [x]) = some c ∧ P c) ↔ P x by
          rw [lastNonWs_concat, if_neg hx]
          constructor
          · rintro ⟨c, hc, hPc⟩
            rwa [Option.some_inj.mp hc]
          · intro hPx
            exact ⟨x, rfl, hPx⟩]
      constructor
      · intro hPx
        exact ⟨ys, x, [], by simp, by simp, hPx⟩
      · rintro ⟨a, c, w, hb, hw, hc⟩
        rcases List.eq_nil_or_concat w with rfl | ⟨w', x', hw'⟩
        · obtain ⟨h1, h2⟩ := List.append_inj' hb rfl
          obtain rfl : x = c := by simpa using h2
          exact hc
        · rw [List.concat_eq_append] at hw'
          subst hw'
          rw [show a ++ c :: (w' ++ [x']) = (a ++ c :: w') ++ [x'] by simp] at hb
          obtain ⟨h1, h2⟩ := List.append_inj' hb rfl
          obtain rfl : x = x' := by simpa using h2
          exact absurd (hw x (List.mem_append.mpr (Or.inr (by simp)))) (by simp [hx])

/-- The disjunction of the seven `triggerPatterns` tests, expressed through
the last character before the trailing whitespace run. -/
theorem triggerAny_eq (b : List Char) :
    (triggerPatterns.any (fun p => patternTest p b) = true) ↔
      ∃ c, lastNonWs b = some c ∧ TriggerCharSpec c := by
  cases hl : lastNonWs b with
  | none =>
    simp [triggerPatterns, patternTest, hl]
  | some c =>
    simp only [triggerPatterns, patternTest, hl, List.any_cons, List.any_nil,
      Bool.or_eq_true, Bool.or_false, beq_iff_eq, Option.some_inj, TriggerCharSpec]
    constructor
    · intro h
      exact ⟨c, rfl, by tauto⟩
    · rintro ⟨c', hcc, hspec⟩
      subst hcc
      tauto

/-- C6: the trigger heuristic is a pure function of the cursor context that
rejects a comment start, rejects an odd quote count, and otherwise accepts
exactly when `beforeCursor` ends with a word-character run, dot, opening
parenthesis, opening brace, equals, colon or comma, optionally followed by
whitespace; with the spec's three examples. -/
theorem claim6_trigger_heuristics :
    (∀ beforeCursor afterCursor : String,
        shouldTriggerSuggestion beforeCursor afterCursor = true ↔
          (¬ StartsComment beforeCursor.toList ∧ EvenQuotes beforeCursor.toList ∧
            EndsWithTrigger beforeCursor.toList))
    ∧ shouldTriggerSuggestion "// some comment" "" = false
    ∧ shouldTriggerSuggestion "const x = " "" = true
    ∧ shouldTriggerSuggestion "say \"hel" "" = false := by
  refine ⟨?_, by decide, by decide, by decide⟩
  intro before after
  unfold shouldTriggerSuggestion
  by_cases hc : (List.isPrefixOf ['/', '/'] (jsTrim before.toList)
      || List.isPrefixOf ['/', '*'] (jsTrim before.toList)) = true
  · rw [if_pos hc]
    constructor
    · intro h
      exact absurd h (by simp)
    · rintro ⟨hnc, -, -⟩
      exfalso
      apply hnc
      unfold StartsComment
      exact Bool.or_eq_true _ _ |>.mp hc
  · by_cases hq : (quoteChars.any fun q => before.toList.count q % 2 == 1) = true
    · rw [if_neg hc, if_pos hq]
      constructor
      · intro h
        exact absurd h (by simp)
      · rintro ⟨-, heq, -⟩
        exfalso
        rcases List.any_eq_true.mp hq with ⟨q, hqmem, hodd⟩
        rw [heq q hqmem] at hodd
        simp at hodd
    · rw [if_neg hc, if_neg hq]
      have hsc : ¬ StartsComment before.toList := by
        unfold StartsComment
        intro habs
        apply hc
        rw [Bool.or_eq_true]
        exact habs
      have heq : EvenQuotes before.toList := by
        intro q hqmem
        rcases Nat.mod_two_eq_zero_or_one (before.toList.count q) with h | h
        · exact h
        · exfalso
          apply hq
          rw [List.any_eq_true]
          exact ⟨q, hqmem, by simpa using h⟩
      rw [triggerAny_eq, lastNonWs_spec TriggerCharSpec triggerCharSpec_not_ws]
      constructor
      · intro h
        exact ⟨hsc, heq, h⟩
      · rintro ⟨-, -, h⟩
        exact h

/-- Witness for C6: the acceptance characterization applied at the concrete
context `const x = `, providing the decomposition explicitly. -/
theorem claim6_witness : shouldTriggerSuggestion "const x = " "" = true :=
  (claim6_trigger_heuristics.1 "const x = " "").mpr
    ⟨by unfold StartsComment; decide, by unfold EvenQuotes quoteChars; decide,
     ⟨['c', 'o', 'n', 's', 't', ' ', 'x', ' '], '=', [' '], by decide, by decide,
      Or.inr (Or.inr (Or.inr (Or.inr (Or.inl rfl))))⟩⟩
